import Mathlib

/-!
Shallow embedding of the booking/approval core of the `btznstn` repository:
`app/models/enums.py`, `app/models/booking.py`, `app/models/approval.py`,
`app/models/timeline_event.py`, `app/repositories/booking_repository.py`
(`check_conflicts`), `app/services/booking_service.py`
(`create_booking`, `update_booking`, `cancel_booking`),
`app/schemas/booking.py` (`BookingCancel.validate_comment`,
`BookingResponse`, `PublicBookingResponse`) and the response construction in
`app/routers/bookings.py`.

Modelling conventions:
* calendar dates are integers (days on an abstract day line); subtraction of
  dates `(end - start).days` becomes integer subtraction;
* timestamps (`datetime.now(BERLIN_TZ)`) are integers passed in as `now`;
  `datetime.now(BERLIN_TZ).date()` is the integer parameter `today`;
* `today + relativedelta(months=18)` is passed in as the parameter
  `futureLimit` (month arithmetic is not representable on the abstract day
  line; none of the verified properties depend on its value);
* Python `str.lower()` is `strLower`, `str.strip()` is `strTrim` (defined below
  over the character list so they evaluate inside the kernel);
* the service raises `ValueError` with fixed German messages; each distinct
  message is modelled as a constructor of `BookingError`, and fallible
  operations return `Except BookingError α`.
-/

namespace Betzenstein

/-- Python `str.lower()`: lowercase every character.  (Defined on the
character list so that it evaluates inside the kernel.) -/
def strLower (s : String) : String := ⟨s.data.map Char.toLower⟩

/-- Python's whitespace test used by `str.strip()`, restricted to the
whitespace characters that can reach these fields. -/
def isSpaceChar (c : Char) : Bool :=
  c == ' ' || c == '\t' || c == '\n' || c == '\r'

/-- Python `str.strip()`: drop leading and trailing whitespace. -/
def strTrim (s : String) : String :=
  ⟨((s.data.dropWhile isSpaceChar).reverse.dropWhile isSpaceChar).reverse⟩

/-- Does `pat` occur as a contiguous substring of `s`?  (Used for the
`re.search` of the link patterns, which are all literal strings.) -/
def subOccurs (pat : List Char) : List Char → Bool
  | [] => pat.isEmpty
  | c :: t => pat.isPrefixOf (c :: t) || subOccurs pat t

/-- `AffiliationEnum` from `app/models/enums.py`: the three fixed approver
parties (also used as the cosmetic affiliation label of a booking). -/
inductive Party
  | ingeborg
  | cornelia
  | angelika
deriving DecidableEq, Repr

/-- The `.value` string of each `AffiliationEnum` member. -/
def Party.value : Party → String
  | .ingeborg => "Ingeborg"
  | .cornelia => "Cornelia"
  | .angelika => "Angelika"

/-- `StatusEnum` from `app/models/enums.py`. -/
inductive StatusEnum
  | pending
  | denied
  | confirmed
  | canceled
deriving DecidableEq, Repr

/-- `DecisionEnum` from `app/models/enums.py`. -/
inductive DecisionEnum
  | noResponse
  | approved
  | denied
deriving DecidableEq, Repr

/-- The `APPROVER_EMAILS` dict of `app/services/booking_service.py`
(BR-003 fixed approver emails), in its Python iteration order
Ingeborg, Cornelia, Angelika. -/
def APPROVER_EMAILS : Party → String
  | .ingeborg => "ingeborg@example.com"
  | .cornelia => "cornelia@example.com"
  | .angelika => "angelika@example.com"

/-- Iteration order of the `APPROVER_EMAILS` dict. -/
def PARTIES : List Party := [.ingeborg, .cornelia, .angelika]

/-- The `Approval` row of `app/models/approval.py`, restricted to one booking
(the `booking_id` column is implicit: each booking's rows are carried as a
list alongside the booking). -/
structure Approval where
  party : Party
  decision : DecisionEnum
  comment : Option String
  decidedAt : Option Int
deriving DecidableEq, Repr

/-- The `TimelineEvent` row of `app/models/timeline_event.py`, restricted to
one booking. -/
structure TimelineEvent where
  when : Int
  actor : String
  eventType : String
  note : Option String
deriving DecidableEq, Repr

/-- The `Booking` row of `app/models/booking.py` (the UUID primary key is
modelled as a `Nat`). -/
structure Booking where
  id : Nat
  startDate : Int
  endDate : Int
  totalDays : Int
  partySize : Nat
  affiliation : Party
  requesterFirstName : String
  requesterEmail : String
  description : Option String
  status : StatusEnum
  createdAt : Int
  updatedAt : Int
  lastActivityAt : Int
deriving DecidableEq, Repr

/-- `BookingRepository.check_conflicts` of
`app/repositories/booking_repository.py`: bookings with status in
{Pending, Confirmed} whose inclusive range overlaps
(`Booking.start_date <= end_date AND Booking.end_date >= start_date`),
optionally excluding one booking id (for edits).  The SQL `SELECT ... WHERE`
is modelled as a filter over the list of stored bookings. -/
def check_conflicts (db : List Booking) (start_date end_date : Int)
    (exclude_booking_id : Option Nat) : List Booking :=
  db.filter fun b =>
    (b.status == .pending || b.status == .confirmed)
      && decide (b.startDate ≤ end_date)
      && decide (b.endDate ≥ start_date)
      && (match exclude_booking_id with
          | none => true
          | some i => b.id != i)

/-- The service's error cases: one constructor per distinct `ValueError`
message raised in `booking_service.py` / `schemas/booking.py`. -/
inductive BookingError
  | notFound
  | notOwner
  | pastReadOnly
  | endBeforeStart
  | beyondHorizon
  | conflict (requesterFirstName : String) (status : StatusEnum)
  | commentRequired
  | deniedCannotCancel
  | linkNotAllowed
  | textTooLong
deriving DecidableEq, Repr

/-- The `BookingCreate` schema payload of `app/schemas/booking.py` as it
reaches `BookingService.create_booking` (already validated by pydantic). -/
structure BookingCreate where
  requesterFirstName : String
  requesterEmail : String
  startDate : Int
  endDate : Int
  partySize : Nat
  affiliation : Party
  description : Option String
  longStayConfirmed : Bool
deriving DecidableEq, Repr

/-- The rows written by a successful `BookingService.create_booking`:
the booking plus its approval fan-out and timeline events. -/
structure CreateResult where
  booking : Booking
  approvals : List Approval
  events : List TimelineEvent
deriving DecidableEq, Repr

/-- `BookingService.create_booking` of `app/services/booking_service.py`.
`db` is the list of already-stored bookings, `newId` the id generated for
the new row, `now` the single `datetime.now(BERLIN_TZ)` timestamp of the
request.  Steps, in source order: BR-001 total_days; BR-002 conflict check
(first conflict found wins); booking row with status Pending; BR-003/BR-015
approval fan-out over `APPROVER_EMAILS` with case-insensitive self-approval
and a SelfApproved event per match; the final Created event. -/
def create_booking (db : List Booking) (newId : Nat) (booking_data : BookingCreate)
    (now : Int) : Except BookingError CreateResult :=
  let total_days := booking_data.endDate - booking_data.startDate + 1
  match check_conflicts db booking_data.startDate booking_data.endDate none with
  | conflict :: _ => .error (.conflict conflict.requesterFirstName conflict.status)
  | [] =>
    let booking : Booking :=
      { id := newId
        requesterFirstName := booking_data.requesterFirstName
        requesterEmail := booking_data.requesterEmail
        startDate := booking_data.startDate
        endDate := booking_data.endDate
        totalDays := total_days
        partySize := booking_data.partySize
        affiliation := booking_data.affiliation
        description := booking_data.description
        status := .pending
        createdAt := now
        updatedAt := now
        lastActivityAt := now }
    let requester_email := strLower booking_data.requesterEmail
    let approvals : List Approval := PARTIES.map fun party =>
      let is_self_approval := requester_email == strLower (APPROVER_EMAILS party)
      { party := party
        decision := if is_self_approval then .approved else .noResponse
        decidedAt := if is_self_approval then some now else none
        comment := none }
    let selfEvents : List TimelineEvent := PARTIES.filterMap fun party =>
      if requester_email == strLower (APPROVER_EMAILS party) then
        some { when := now
               actor := booking.requesterFirstName
               eventType := "SelfApproved"
               note := some (party.value ++ " (self-approval)") }
      else none
    let createdEvent : TimelineEvent :=
      { when := booking.createdAt
        actor := booking.requesterFirstName
        eventType := "Created"
        note := none }
    .ok { booking := booking
          approvals := approvals
          events := selfEvents ++ [createdEvent] }

/-- The `BookingUpdate` schema payload of `app/schemas/booking.py`
(all fields optional; `None` means absent from the partial update). -/
structure BookingUpdate where
  requesterFirstName : Option String
  startDate : Option Int
  endDate : Option Int
  partySize : Option Nat
  affiliation : Option Party
  description : Option String
deriving DecidableEq, Repr

/-- The field-by-field `if booking_data.x is not None: booking.x = ...`
block of `BookingService.update_booking`. -/
def applyUpdates (b : Booking) (d : BookingUpdate) : Booking :=
  { b with
    requesterFirstName := d.requesterFirstName.getD b.requesterFirstName
    startDate := d.startDate.getD b.startDate
    endDate := d.endDate.getD b.endDate
    partySize := d.partySize.getD b.partySize
    affiliation := d.affiliation.getD b.affiliation
    description := match d.description with
      | some v => some v
      | none => b.description }

/-- The BR-005 reset applied to each approval row on an extension:
decision NoResponse, decided_at null, comment null. -/
def resetApproval (a : Approval) : Approval :=
  { a with decision := .noResponse, decidedAt := none, comment := none }

/-- The "Edited" timeline note of `BookingService.update_booking`.  The
source renders the old and new ranges through `strftime` (day-of-month of
the start, full date of the end); with dates on an abstract integer day
line the two ranges are rendered through `toString` instead, preserving
that the note embeds both the old and the new date range. -/
def fmtEditedNote (originalStart originalEnd newStart newEnd : Int) : String :=
  "Dates: " ++ toString originalStart ++ "-" ++ toString originalEnd
    ++ " -> " ++ toString newStart ++ "-" ++ toString newEnd

/-- `BookingService.update_booking` of `app/services/booking_service.py`.
`booking` is the row loaded by id (existence is the caller's hypothesis),
`approvals` its approval rows, `requester_email` the email recovered from
the token, `today` the Berlin-timezone current date, `futureLimit` the
value `today + relativedelta(months=18)`, `now` the commit timestamp.
Steps, in source order: ownership check; BR-014 past check; apply partial
updates; if a date field is present: end>=start, BR-014 again, BR-026
horizon, BR-001 total_days, BR-002 conflicts excluding this id; BR-005
extension-reset of approvals; Edited timeline event for date changes
(never for first-name-only edits, BR-025); bump updated_at and
last_activity_at. -/
def update_booking (db : List Booking) (booking : Booking)
    (approvals : List Approval) (booking_data : BookingUpdate)
    (requester_email : String) (today futureLimit now : Int) :
    Except BookingError (Booking × List Approval × List TimelineEvent) :=
  if strLower booking.requesterEmail ≠ strLower requester_email then
    .error .notOwner
  else if booking.endDate < today then
    .error .pastReadOnly
  else
    let original_start := booking.startDate
    let original_end := booking.endDate
    let b := applyUpdates booking booking_data
    let dates_changed := booking_data.startDate.isSome || booking_data.endDate.isSome
    if dates_changed then
      if b.endDate < b.startDate then
        .error .endBeforeStart
      else if b.endDate < today then
        .error .pastReadOnly
      else if b.startDate > futureLimit then
        .error .beyondHorizon
      else
        let b := { b with totalDays := b.endDate - b.startDate + 1 }
        match check_conflicts db b.startDate b.endDate (some booking.id) with
        | conflict :: _ => .error (.conflict conflict.requesterFirstName conflict.status)
        | [] =>
          let is_extend := b.startDate < original_start || b.endDate > original_end
          let approvals := if is_extend then approvals.map resetApproval else approvals
          let ev : TimelineEvent :=
            { when := now
              actor := b.requesterFirstName
              eventType := "Edited"
              note := some (fmtEditedNote original_start original_end b.startDate b.endDate) }
          .ok ({ b with updatedAt := now, lastActivityAt := now }, approvals, [ev])
    else
      .ok ({ b with updatedAt := now, lastActivityAt := now }, approvals, [])

/-- The fixed cancel confirmation returned by `BookingService.cancel_booking`
(both on the idempotent already-Canceled path and on a fresh cancel). -/
def CANCEL_MESSAGE : String :=
  "Anfrage storniert. Benachrichtigt: Ingeborg, Cornelia und Angelika."

/-- Python truthiness of `cancel_data.comment` in
`if not cancel_data.comment`: `None` and the empty string are falsy. -/
def commentMissing : Option String → Bool
  | none => true
  | some c => c.data.isEmpty

/-- `BookingService.cancel_booking` of `app/services/booking_service.py`.
Steps, in source order: ownership check; BR-014 past check; Denied is
terminal; Canceled returns the confirmation idempotently without touching
the row; BR-007 comment required for Confirmed; otherwise set status
Canceled, emit the Canceled event (embedding the comment) and bump
timestamps.  Returns the mutated booking, the new timeline events and the
confirmation message. -/
def cancel_booking (booking : Booking) (comment : Option String)
    (requester_email : String) (today now : Int) :
    Except BookingError (Booking × List TimelineEvent × String) :=
  if strLower booking.requesterEmail ≠ strLower requester_email then
    .error .notOwner
  else if booking.endDate < today then
    .error .pastReadOnly
  else if booking.status = .denied then
    .error .deniedCannotCancel
  else if booking.status = .canceled then
    .ok (booking, [], CANCEL_MESSAGE)
  else if booking.status = .confirmed && commentMissing comment then
    .error .commentRequired
  else
    let event_note := comment.map fun c => "Comment: " ++ c
    let ev : TimelineEvent :=
      { when := now
        actor := booking.requesterFirstName
        eventType := "Canceled"
        note := event_note }
    .ok ({ booking with status := .canceled, updatedAt := now, lastActivityAt := now },
         [ev], CANCEL_MESSAGE)

/-- The `LINK_PATTERNS` of `app/schemas/booking.py`: the regexes
`https?://`, `www\.`, `mailto:` (case-insensitive search) match exactly
when one of these four substrings occurs in the lowercased text. -/
def LINK_SUBSTRINGS : List String := ["http://", "https://", "www.", "mailto:"]

/-- Case-insensitive link detection of `app/schemas/booking.py`
(`pattern.search(v)` over `LINK_PATTERNS`; the patterns `https?://`,
`www\.`, `mailto:` match exactly when one of the four literal substrings
occurs in the lowercased text). -/
def containsLink (s : String) : Bool :=
  LINK_SUBSTRINGS.any fun pat => subOccurs pat.data (strLower s).data

/-- `BookingCancel.validate_comment` of `app/schemas/booking.py`: trim,
treat empty as absent, reject over-long text and links. -/
def validate_comment (v : Option String) : Except BookingError (Option String) :=
  match v with
  | none => .ok none
  | some v =>
    let v := strTrim v
    if v.data.isEmpty then .ok none
    else if v.length > 500 then .error .textTooLong
    else if containsLink v then .error .linkNotAllowed
    else .ok (some v)

/-- A cancel request as it reaches the service: the raw comment goes through
the `BookingCancel` schema validator, then `cancel_booking` runs. -/
def cancel_request (booking : Booking) (rawComment : Option String)
    (requester_email : String) (today now : Int) :
    Except BookingError (Booking × List TimelineEvent × String) :=
  match validate_comment rawComment with
  | .error e => .error e
  | .ok comment => cancel_booking booking comment requester_email today now

/-- The `ApprovalResponse` schema of `app/schemas/booking.py` (decision is
serialized as its enum string). -/
structure ApprovalResponse where
  id : Nat
  party : Party
  decision : DecisionEnum
  decidedAt : Option Int
  comment : Option String
deriving DecidableEq, Repr

/-- The `TimelineEventResponse` schema of `app/schemas/booking.py`. -/
structure TimelineEventResponse where
  id : Nat
  when : Int
  actor : String
  eventType : String
  note : Option String
deriving DecidableEq, Repr

/-- The `BookingResponse` schema of `app/schemas/booking.py`: the
authenticated view.  Its declared fields are exactly these; pydantic
serializes declared fields and nothing else, so `requester_email` can never
appear in a serialized `BookingResponse`. -/
structure BookingResponse where
  id : Nat
  requesterFirstName : String
  startDate : Int
  endDate : Int
  totalDays : Int
  partySize : Nat
  affiliation : Party
  description : Option String
  status : StatusEnum
  createdAt : Int
  updatedAt : Int
  lastActivityAt : Int
  isPast : Bool
  approvals : List ApprovalResponse
  timelineEvents : List TimelineEventResponse
deriving DecidableEq, Repr

/-- The `PublicBookingResponse` schema of `app/schemas/booking.py`: the
unauthenticated view. -/
structure PublicBookingResponse where
  id : Nat
  requesterFirstName : String
  startDate : Int
  endDate : Int
  totalDays : Int
  partySize : Nat
  affiliation : Party
  status : StatusEnum
  isPast : Bool
deriving DecidableEq, Repr

/-- Pydantic serialization of a `BookingResponse`: one (field name, rendered
value) pair per declared field, in declaration order. -/
def serializeBookingResponse (r : BookingResponse) : List (String × String) :=
  [("id", toString r.id),
   ("requester_first_name", r.requesterFirstName),
   ("start_date", toString r.startDate),
   ("end_date", toString r.endDate),
   ("total_days", toString r.totalDays),
   ("party_size", toString r.partySize),
   ("affiliation", r.affiliation.value),
   ("description", toString (repr r.description)),
   ("status", toString (repr r.status)),
   ("created_at", toString r.createdAt),
   ("updated_at", toString r.updatedAt),
   ("last_activity_at", toString r.lastActivityAt),
   ("is_past", toString r.isPast),
   ("approvals", toString (repr r.approvals)),
   ("timeline_events", toString (repr r.timelineEvents))]

/-- Pydantic serialization of a `PublicBookingResponse`. -/
def serializePublicBookingResponse (r : PublicBookingResponse) :
    List (String × String) :=
  [("id", toString r.id),
   ("requester_first_name", r.requesterFirstName),
   ("start_date", toString r.startDate),
   ("end_date", toString r.endDate),
   ("total_days", toString r.totalDays),
   ("party_size", toString r.partySize),
   ("affiliation", r.affiliation.value),
   ("status", toString (repr r.status)),
   ("is_past", toString r.isPast)]

/-- The `BookingResponse(...)` construction shared by the create, get and
update handlers of `app/routers/bookings.py`: every field is copied from the
booking row (plus the derived `is_past = end_date < today`); approval and
timeline rows are converted with their ids. -/
def buildBookingResponse (b : Booking) (approvalRows : List (Nat × Approval))
    (eventRows : List (Nat × TimelineEvent)) (today : Int) : BookingResponse :=
  { id := b.id
    requesterFirstName := b.requesterFirstName
    startDate := b.startDate
    endDate := b.endDate
    totalDays := b.totalDays
    partySize := b.partySize
    affiliation := b.affiliation
    description := b.description
    status := b.status
    createdAt := b.createdAt
    updatedAt := b.updatedAt
    lastActivityAt := b.lastActivityAt
    isPast := decide (b.endDate < today)
    approvals := approvalRows.map fun (i, a) =>
      { id := i
        party := a.party
        decision := a.decision
        decidedAt := a.decidedAt
        comment := a.comment }
    timelineEvents := eventRows.map fun (i, e) =>
      { id := i
        when := e.when
        actor := e.actor
        eventType := e.eventType
        note := e.note } }

/-- The `PublicBookingResponse(...)` construction of the get handler of
`app/routers/bookings.py` (no-token path). -/
def buildPublicBookingResponse (b : Booking) (today : Int) :
    PublicBookingResponse :=
  { id := b.id
    requesterFirstName := b.requesterFirstName
    startDate := b.startDate
    endDate := b.endDate
    totalDays := b.totalDays
    partySize := b.partySize
    affiliation := b.affiliation
    status := b.status
    isPast := decide (b.endDate < today) }

/-- C2: `check_conflicts` returns exactly the stored bookings whose status is
Pending or Confirmed, whose inclusive interval overlaps the candidate under
`existing.start <= new.end AND existing.end >= new.start`, and whose id
differs from the excluded id when one is given; consequently Denied and
Canceled bookings are never returned. -/
theorem check_conflicts_exact (db : List Booking) (s e : Int)
    (excl : Option Nat) (b : Booking) :
    (b ∈ check_conflicts db s e excl ↔
      b ∈ db ∧ (b.status = .pending ∨ b.status = .confirmed)
        ∧ b.startDate ≤ e ∧ b.endDate ≥ s
        ∧ (∀ i, excl = some i → b.id ≠ i))
    ∧ ((b.status = .denied ∨ b.status = .canceled) →
        b ∉ check_conflicts db s e excl) := by
  have hmem : b ∈ check_conflicts db s e excl ↔
      b ∈ db ∧ (b.status = .pending ∨ b.status = .confirmed)
        ∧ b.startDate ≤ e ∧ b.endDate ≥ s
        ∧ (∀ i, excl = some i → b.id ≠ i) := by
    cases excl with
    | none =>
      simp [check_conflicts, List.mem_filter, and_assoc]
    | some i =>
      simp [check_conflicts, List.mem_filter, and_assoc]
  refine ⟨hmem, fun hstat hin => ?_⟩
  rcases (hmem.mp hin).2.1 with h | h <;> rcases hstat with h' | h' <;>
    rw [h'] at h <;> exact StatusEnum.noConfusion h

/-- Characterization of a successful `update_booking` run: ownership and the
pre-check both held, and the result is one of the two commit shapes (no date
field present / at least one date field present). -/
theorem update_booking_ok_cases
    (db : List Booking) (booking : Booking) (approvals : List Approval)
    (d : BookingUpdate) (email : String) (today futureLimit now : Int)
    (b' : Booking) (apps' : List Approval) (evs : List TimelineEvent)
    (h : update_booking db booking approvals d email today futureLimit now
          = .ok (b', apps', evs)) :
    strLower booking.requesterEmail = strLower email ∧
    today ≤ booking.endDate ∧
    ((d.startDate = none ∧ d.endDate = none ∧
        b' = { applyUpdates booking d with updatedAt := now, lastActivityAt := now } ∧
        apps' = approvals ∧ evs = []) ∨
      ((d.startDate.isSome ∨ d.endDate.isSome) ∧
        b' = { applyUpdates booking d with
               totalDays := (applyUpdates booking d).endDate
                 - (applyUpdates booking d).startDate + 1,
               updatedAt := now, lastActivityAt := now } ∧
        ((b'.startDate < booking.startDate ∨ booking.endDate < b'.endDate) →
          apps' = approvals.map resetApproval) ∧
        (¬(b'.startDate < booking.startDate ∨ booking.endDate < b'.endDate) →
          apps' = approvals) ∧
        evs = [{ when := now
                 actor := b'.requesterFirstName
                 eventType := "Edited"
                 note := some (fmtEditedNote booking.startDate booking.endDate
                   b'.startDate b'.endDate) }])) := by
  unfold update_booking at h
  split at h
  · exact Except.noConfusion h
  next hown =>
  split at h
  · exact Except.noConfusion h
  next hpast =>
  rw [not_ne_iff] at hown
  refine ⟨hown, le_of_not_lt hpast, ?_⟩
  dsimp only at h
  split at h
  next hdates =>
    split at h
    · exact Except.noConfusion h
    split at h
    · exact Except.noConfusion h
    split at h
    · exact Except.noConfusion h
    split at h
    · exact Except.noConfusion h
    next hconf =>
    simp only [Except.ok.injEq, Prod.mk.injEq] at h
    obtain ⟨hb, ha, he⟩ := h
    subst hb
    subst ha
    subst he
    refine Or.inr ⟨?_, rfl, ?_, ?_, rfl⟩
    · rcases Bool.or_eq_true _ _ |>.mp hdates with h' | h'
      · exact Or.inl h'
      · exact Or.inr h'
    · intro hext
      rw [if_pos]
      simp only [Bool.or_eq_true, decide_eq_true_eq, gt_iff_lt]
      exact hext
    · intro hext
      rw [if_neg]
      simp only [Bool.or_eq_true, decide_eq_true_eq, gt_iff_lt]
      exact hext
  next hdates =>
    simp only [Except.ok.injEq, Prod.mk.injEq] at h
    obtain ⟨hb, ha, he⟩ := h
    subst hb
    subst ha
    subst he
    refine Or.inl ⟨?_, ?_, rfl, rfl, rfl⟩
    · cases hd : d.startDate with
      | none => rfl
      | some v => exact absurd (by simp [hd]) hdates
    · cases hd : d.endDate with
      | none => rfl
      | some v => exact absurd (by simp [hd]) hdates

/-- Characterization of a successful `create_booking` run: the conflict
check found nothing, and the booking, approval and timeline rows are exactly
the ones written in the source, as functions of the payload. -/
theorem create_booking_ok_spec
    (db : List Booking) (newId : Nat) (data : BookingCreate) (now : Int)
    (r : CreateResult)
    (h : create_booking db newId data now = .ok r) :
    check_conflicts db data.startDate data.endDate none = [] ∧
    r.booking =
      { id := newId
        requesterFirstName := data.requesterFirstName
        requesterEmail := data.requesterEmail
        startDate := data.startDate
        endDate := data.endDate
        totalDays := data.endDate - data.startDate + 1
        partySize := data.partySize
        affiliation := data.affiliation
        description := data.description
        status := .pending
        createdAt := now
        updatedAt := now
        lastActivityAt := now } ∧
    r.approvals = (PARTIES.map fun party =>
      { party := party
        decision :=
          if (strLower data.requesterEmail == strLower (APPROVER_EMAILS party)) = true
          then DecisionEnum.approved else DecisionEnum.noResponse
        comment := none
        decidedAt :=
          if (strLower data.requesterEmail == strLower (APPROVER_EMAILS party)) = true
          then some now else none }) ∧
    r.events = (PARTIES.filterMap fun party =>
        if (strLower data.requesterEmail == strLower (APPROVER_EMAILS party)) = true then
          some { when := now
                 actor := data.requesterFirstName
                 eventType := "SelfApproved"
                 note := some (party.value ++ " (self-approval)") }
        else none)
      ++ [{ when := now
            actor := data.requesterFirstName
            eventType := "Created"
            note := none }] := by
  unfold create_booking at h
  dsimp only at h
  split at h
  · exact Except.noConfusion h
  next hconf =>
  simp only [Except.ok.injEq] at h
  subst h
  exact ⟨hconf, rfl, rfl, rfl⟩

/-- C3: immediately after a successful create there are exactly three
approval rows — one per fixed party (Ingeborg, Cornelia, Angelika), no more
and no fewer, regardless of the requester's identity — and no operation
creates a second row for an existing (booking, party) pair: update only
rewrites the stored rows in place (the party column of the row list is
unchanged) and cancel takes and returns no approval rows at all. -/
theorem create_approval_fanout
    (db : List Booking) (newId : Nat) (data : BookingCreate) (now : Int)
    (r : CreateResult)
    (h : create_booking db newId data now = .ok r) :
    r.approvals.map Approval.party
        = [Party.ingeborg, Party.cornelia, Party.angelika] ∧
    r.approvals.length = 3 ∧
    (∀ p : Party, (r.approvals.filter fun a => a.party == p).length = 1) ∧
    (∀ (db' : List Booking) (bk b' : Booking) (apps apps' : List Approval)
        (upd : BookingUpdate) (email : String) (today limit now' : Int)
        (evs : List TimelineEvent),
      update_booking db' bk apps upd email today limit now' = .ok (b', apps', evs) →
      apps'.map Approval.party = apps.map Approval.party) := by
  obtain ⟨-, -, happ, -⟩ := create_booking_ok_spec db newId data now r h
  refine ⟨?_, ?_, ?_, ?_⟩
  · rw [happ]
    simp [PARTIES]
  · rw [happ]
    simp [PARTIES]
  · intro p
    rw [happ]
    cases p <;> simp [PARTIES]
  · intro db' bk b' apps apps' upd email today limit now' evs hupd
    obtain ⟨-, -, hcase⟩ :=
      update_booking_ok_cases db' bk apps upd email today limit now' b' apps' evs hupd
    rcases hcase with ⟨-, -, -, rfl, -⟩ | ⟨-, -, hext, hnext, -⟩
    · rfl
    · by_cases hx : b'.startDate < bk.startDate ∨ bk.endDate < b'.endDate
      · rw [hext hx]
        simp [List.map_map, Function.comp, resetApproval]
      · rw [hnext hx]

/-- The three configured approver emails remain pairwise distinct after
lowercasing, so a requester email can self-approve at most one party. -/
theorem approver_emails_distinct (p q : Party) (h : p ≠ q) :
    strLower (APPROVER_EMAILS p) ≠ strLower (APPROVER_EMAILS q) := by
  cases p <;> cases q <;> first
    | exact absurd rfl h
    | decide

/-- C4: on a successful create, if the requester's email case-insensitively
equals one configured approver email then exactly that party's approval is
written as Approved with decided_at = now, the other two approvals are
NoResponse with decided_at null, and exactly one SelfApproved timeline event
naming that party is emitted; if the email matches no approver email, all
three approvals are NoResponse with decided_at null and no SelfApproved
event is emitted. -/
theorem create_self_approval
    (db : List Booking) (newId : Nat) (data : BookingCreate) (now : Int)
    (r : CreateResult)
    (h : create_booking db newId data now = .ok r) :
    (∀ p : Party, strLower data.requesterEmail = strLower (APPROVER_EMAILS p) →
      (∀ a ∈ r.approvals,
        (a.party = p → a.decision = .approved ∧ a.decidedAt = some now) ∧
        (a.party ≠ p →
          a.decision = .noResponse ∧ a.decidedAt = none ∧ a.comment = none)) ∧
      (r.events.filter fun e => e.eventType == "SelfApproved") =
        [{ when := now
           actor := data.requesterFirstName
           eventType := "SelfApproved"
           note := some (p.value ++ " (self-approval)") }]) ∧
    ((∀ p : Party, strLower data.requesterEmail ≠ strLower (APPROVER_EMAILS p)) →
      (∀ a ∈ r.approvals,
        a.decision = .noResponse ∧ a.decidedAt = none ∧ a.comment = none) ∧
      (r.events.filter fun e => e.eventType == "SelfApproved") = []) := by
  obtain ⟨-, -, happ, hev⟩ := create_booking_ok_spec db newId data now r h
  constructor
  · intro p hp
    constructor
    · intro a ha
      rw [happ] at ha
      obtain ⟨q, hqmem, rfl⟩ := List.mem_map.mp ha
      constructor
      · intro hpq
        have hqp : q = p := hpq
        subst hqp
        have hc : (strLower data.requesterEmail == strLower (APPROVER_EMAILS q)) = true := by
          rw [hp]
          exact beq_self_eq_true _
        simp [hc]
      · intro hpq
        have hqp : q ≠ p := fun he => hpq (by rw [he])
        have hc : (strLower data.requesterEmail == strLower (APPROVER_EMAILS q)) = false := by
          rw [hp]
          exact beq_eq_false_iff_ne.mpr (approver_emails_distinct p q hqp.symm)
        simp [hc]
    · rw [hev]
      have hic : ¬ (strLower "ingeborg@example.com" = strLower "cornelia@example.com") := by decide
      have hia : ¬ (strLower "ingeborg@example.com" = strLower "angelika@example.com") := by decide
      have hci : ¬ (strLower "cornelia@example.com" = strLower "ingeborg@example.com") := by decide
      have hca : ¬ (strLower "cornelia@example.com" = strLower "angelika@example.com") := by decide
      have hai : ¬ (strLower "angelika@example.com" = strLower "ingeborg@example.com") := by decide
      have hac : ¬ (strLower "angelika@example.com" = strLower "cornelia@example.com") := by decide
      have hbt : ("SelfApproved" == "SelfApproved") = true := by decide
      have hbf : ("Created" == "SelfApproved") = false := by decide
      cases p <;>
        simp only [APPROVER_EMAILS] at hp <;>
        simp [PARTIES, APPROVER_EMAILS, hp, Party.value, List.filterMap_cons,
          hic, hia, hci, hca, hai, hac, hbt, hbf]
  · intro hp
    constructor
    · intro a ha
      rw [happ] at ha
      obtain ⟨q, hqmem, rfl⟩ := List.mem_map.mp ha
      have hc : (strLower data.requesterEmail == strLower (APPROVER_EMAILS q)) = false :=
        beq_eq_false_iff_ne.mpr (hp q)
      simp [hc]
    · rw [hev]
      have h1 : strLower data.requesterEmail ≠ strLower "ingeborg@example.com" := hp .ingeborg
      have h2 : strLower data.requesterEmail ≠ strLower "cornelia@example.com" := hp .cornelia
      have h3 : strLower data.requesterEmail ≠ strLower "angelika@example.com" := hp .angelika
      have hbf : ("Created" == "SelfApproved") = false := by decide
      simp [PARTIES, APPROVER_EMAILS, List.filterMap_cons, h1, h2, h3, hbf]

/-- C1: after a successful update, if the committed interval is an extension
of the original (new start earlier, or new end later, or both) then all
three approval rows are reset to NoResponse / decided_at null / comment
null, regardless of their prior decisions; if it is a pure contraction or
unchanged the approval rows are exactly as they were; and an update with no
date field present (one touching only party_size, affiliation, first name
or description) never changes any approval row. -/
theorem update_approval_reset
    (db : List Booking) (booking : Booking) (approvals : List Approval)
    (d : BookingUpdate) (email : String) (today futureLimit now : Int)
    (b' : Booking) (apps' : List Approval) (evs : List TimelineEvent)
    (h : update_booking db booking approvals d email today futureLimit now
          = .ok (b', apps', evs)) :
    ((b'.startDate < booking.startDate ∨ booking.endDate < b'.endDate) →
      apps' = approvals.map resetApproval ∧
      ∀ a ∈ apps',
        a.decision = .noResponse ∧ a.decidedAt = none ∧ a.comment = none) ∧
    (¬(b'.startDate < booking.startDate ∨ booking.endDate < b'.endDate) →
      apps' = approvals) ∧
    (d.startDate = none ∧ d.endDate = none → apps' = approvals) := by
  obtain ⟨-, -, hcase⟩ :=
    update_booking_ok_cases db booking approvals d email today futureLimit now
      b' apps' evs h
  rcases hcase with ⟨hs, he, hb, rfl, -⟩ | ⟨-, hb, hext, hnext, -⟩
  · have hstart : b'.startDate = booking.startDate := by
      rw [hb]; simp [applyUpdates, hs]
    have hend : b'.endDate = booking.endDate := by
      rw [hb]; simp [applyUpdates, he]
    refine ⟨?_, fun _ => rfl, fun _ => rfl⟩
    intro hx
    rcases hx with hx | hx
    · rw [hstart] at hx
      exact absurd hx (lt_irrefl _)
    · rw [hend] at hx
      exact absurd hx (lt_irrefl _)
  · refine ⟨?_, hnext, ?_⟩
    · intro hx
      refine ⟨hext hx, ?_⟩
      rw [hext hx]
      intro a ha
      obtain ⟨a0, -, rfl⟩ := List.mem_map.mp ha
      exact ⟨rfl, rfl, rfl⟩
    · rintro ⟨hs, he⟩
      apply hnext
      have hstart : b'.startDate = booking.startDate := by
        rw [hb]; simp [applyUpdates, hs]
      have hend : b'.endDate = booking.endDate := by
        rw [hb]; simp [applyUpdates, he]
      rw [hstart, hend]
      simp

/-- C8: on a successful update in which the start or end date changed,
exactly one new timeline event is emitted, of type "Edited", and its note
embeds the old date range and the new date range; an update that touches no
date field (in particular one changing only requester_first_name) emits no
timeline event at all. -/
theorem update_timeline_policy
    (db : List Booking) (booking : Booking) (approvals : List Approval)
    (d : BookingUpdate) (email : String) (today futureLimit now : Int)
    (b' : Booking) (apps' : List Approval) (evs : List TimelineEvent)
    (h : update_booking db booking approvals d email today futureLimit now
          = .ok (b', apps', evs)) :
    ((b'.startDate ≠ booking.startDate ∨ b'.endDate ≠ booking.endDate) →
      evs = [{ when := now
               actor := b'.requesterFirstName
               eventType := "Edited"
               note := some (fmtEditedNote booking.startDate booking.endDate
                 b'.startDate b'.endDate) }]) ∧
    (d.startDate = none ∧ d.endDate = none → evs = []) ∧
    (∀ v, d = { requesterFirstName := some v, startDate := none, endDate := none,
                partySize := none, affiliation := none, description := none } →
      evs = []) := by
  obtain ⟨-, -, hcase⟩ :=
    update_booking_ok_cases db booking approvals d email today futureLimit now
      b' apps' evs h
  rcases hcase with ⟨hs, he, hb, -, rfl⟩ | ⟨hsome, hb, -, -, rfl⟩
  · have hstart : b'.startDate = booking.startDate := by
      rw [hb]; simp [applyUpdates, hs]
    have hend : b'.endDate = booking.endDate := by
      rw [hb]; simp [applyUpdates, he]
    refine ⟨?_, fun _ => rfl, fun _ _ => rfl⟩
    intro hx
    rcases hx with hx | hx
    · exact absurd hstart hx
    · exact absurd hend hx
  · refine ⟨fun _ => rfl, ?_, ?_⟩
    · rintro ⟨hs, he⟩
      rw [hs, he] at hsome
      simp at hsome
    · intro v hv
      subst hv
      simp at hsome

/-- C9: a successful update modifies only the fields present in the partial
update plus the derived total_days, updated_at and last_activity_at (and,
on extension, the approval rows — see `update_approval_reset`); every
absent field keeps its prior value, and the booking's status is never
changed by update (a Confirmed booking stays Confirmed even after an
approval-resetting extension). -/
theorem update_frame
    (db : List Booking) (booking : Booking) (approvals : List Approval)
    (d : BookingUpdate) (email : String) (today futureLimit now : Int)
    (b' : Booking) (apps' : List Approval) (evs : List TimelineEvent)
    (h : update_booking db booking approvals d email today futureLimit now
          = .ok (b', apps', evs)) :
    b'.status = booking.status ∧
    b'.id = booking.id ∧
    b'.requesterEmail = booking.requesterEmail ∧
    b'.createdAt = booking.createdAt ∧
    (d.requesterFirstName = none →
      b'.requesterFirstName = booking.requesterFirstName) ∧
    (d.startDate = none → b'.startDate = booking.startDate) ∧
    (d.endDate = none → b'.endDate = booking.endDate) ∧
    (d.partySize = none → b'.partySize = booking.partySize) ∧
    (d.affiliation = none → b'.affiliation = booking.affiliation) ∧
    (d.description = none → b'.description = booking.description) ∧
    (d.startDate = none ∧ d.endDate = none →
      b'.totalDays = booking.totalDays) ∧
    b'.updatedAt = now ∧ b'.lastActivityAt = now := by
  obtain ⟨-, -, hcase⟩ :=
    update_booking_ok_cases db booking approvals d email today futureLimit now
      b' apps' evs h
  rcases hcase with ⟨hs, he, hb, -, -⟩ | ⟨hsome, hb, -, -, -⟩
  · subst hb
    refine ⟨by simp [applyUpdates], by simp [applyUpdates], by simp [applyUpdates],
      by simp [applyUpdates], ?_, ?_, ?_, ?_, ?_, ?_, ?_, rfl, rfl⟩
    all_goals intro hx
    · simp [applyUpdates, hx]
    · simp [applyUpdates, hx]
    · simp [applyUpdates, hx]
    · simp [applyUpdates, hx]
    · simp [applyUpdates, hx]
    · cases hd : d.description with
      | none => simp [applyUpdates, hd]
      | some v => exact absurd hd (by simp [hx])
    · simp [applyUpdates]
  · subst hb
    refine ⟨by simp [applyUpdates], by simp [applyUpdates], by simp [applyUpdates],
      by simp [applyUpdates], ?_, ?_, ?_, ?_, ?_, ?_, ?_, rfl, rfl⟩
    all_goals intro hx
    · simp [applyUpdates, hx]
    · simp [applyUpdates, hx]
    · simp [applyUpdates, hx]
    · simp [applyUpdates, hx]
    · simp [applyUpdates, hx]
    · cases hd : d.description with
      | none => simp [applyUpdates, hd]
      | some v => exact absurd hd (by simp [hx])
    · obtain ⟨hx1, hx2⟩ := hx
      simp [hx1, hx2] at hsome

/-- A comment accepted by `BookingCancel.validate_comment` as `some c` is
non-empty (the validator trims and maps empty text to `None`). -/
theorem validate_comment_some_nonempty (raw : Option String) (c : String)
    (h : validate_comment raw = .ok (some c)) : c.data.isEmpty = false := by
  unfold validate_comment at h
  cases raw with
  | none => simp at h
  | some v =>
    dsimp only at h
    split at h
    · simp at h
    next hne =>
    split at h
    · exact Except.noConfusion h
    split at h
    · exact Except.noConfusion h
    simp only [Except.ok.injEq, Option.some.injEq] at h
    subst h
    exact Bool.eq_false_iff.mpr hne

/-- C5: for a cancel request on an existing, owned, non-past booking the
outcome is decided by the booking's status: Denied always fails; Canceled
succeeds idempotently with the same fixed confirmation as a fresh cancel;
Confirmed fails when the comment is empty after trimming and succeeds —
setting status Canceled — when a non-empty link-free comment is given;
Pending succeeds with or without a comment. -/
theorem cancel_status_policy
    (booking : Booking) (email : String) (today now : Int)
    (hown : strLower booking.requesterEmail = strLower email)
    (hpast : today ≤ booking.endDate) :
    (booking.status = .denied →
      ∀ raw res, cancel_request booking raw email today now ≠ .ok res) ∧
    (booking.status = .canceled →
      ∀ raw c, validate_comment raw = .ok c →
        cancel_request booking raw email today now
          = .ok (booking, [], CANCEL_MESSAGE)) ∧
    (booking.status = .confirmed →
      (∀ raw, validate_comment raw = .ok none →
        cancel_request booking raw email today now = .error .commentRequired) ∧
      (∀ raw c, validate_comment raw = .ok (some c) →
        cancel_request booking raw email today now
          = .ok ({ booking with
                   status := .canceled, updatedAt := now,
                   lastActivityAt := now },
                 [{ when := now, actor := booking.requesterFirstName,
                    eventType := "Canceled",
                    note := some ("Comment: " ++ c) }],
                 CANCEL_MESSAGE))) ∧
    (booking.status = .pending →
      ∀ raw c, validate_comment raw = .ok c →
        cancel_request booking raw email today now
          = .ok ({ booking with
                   status := .canceled, updatedAt := now,
                   lastActivityAt := now },
                 [{ when := now, actor := booking.requesterFirstName,
                    eventType := "Canceled",
                    note := c.map fun s => "Comment: " ++ s }],
                 CANCEL_MESSAGE)) := by
  have hnotPast : ¬ booking.endDate < today := not_lt.mpr hpast
  have hownIf : ¬ (strLower booking.requesterEmail ≠ strLower email) :=
    not_ne_iff.mpr hown
  refine ⟨?_, ?_, fun hst => ⟨?_, ?_⟩, ?_⟩
  · intro hst raw res
    cases hv : validate_comment raw with
    | error e => simp [cancel_request, hv]
    | ok c =>
      simp [cancel_request, hv, cancel_booking, hownIf, hnotPast, hst]
  · intro hst raw c hv
    simp [cancel_request, hv, cancel_booking, hownIf, hnotPast, hst]
  · intro raw hv
    simp [cancel_request, hv, cancel_booking, hownIf, hnotPast, hst, commentMissing]
  · intro raw c hv
    have hne := validate_comment_some_nonempty raw c hv
    simp [cancel_request, hv, cancel_booking, hownIf, hnotPast, hst,
      commentMissing, hne]
  · intro hst raw c hv
    simp [cancel_request, hv, cancel_booking, hownIf, hnotPast, hst]

/-- C10: cancel on an already-Canceled booking is a pure no-op success —
the ownership and past checks still run first and still fail otherwise, but
once they pass, the service returns the confirmation message with the
booking row returned exactly as stored (no status write, no timestamp
change) and no new timeline event. -/
theorem cancel_already_canceled_noop
    (booking : Booking) (comment : Option String) (email : String)
    (today now : Int) :
    (strLower booking.requesterEmail ≠ strLower email →
      cancel_booking booking comment email today now = .error .notOwner) ∧
    (strLower booking.requesterEmail = strLower email →
      booking.endDate < today →
      cancel_booking booking comment email today now = .error .pastReadOnly) ∧
    (strLower booking.requesterEmail = strLower email →
      today ≤ booking.endDate →
      booking.status = .canceled →
      cancel_booking booking comment email today now
        = .ok (booking, [], CANCEL_MESSAGE)) := by
  refine ⟨?_, ?_, ?_⟩
  · intro hne
    simp [cancel_booking, hne]
  · intro hown hlt
    simp [cancel_booking, not_ne_iff.mpr hown, hlt]
  · intro hown hle hst
    simp [cancel_booking, not_ne_iff.mpr hown, not_lt.mpr hle, hst]

/-- C7: a booking whose end date is strictly before today (Europe/Berlin)
is read-only — both update and cancel fail with the past error before any
write; when the end date is today or later neither operation fails with the
past error for the stored row; and on update the end-date-versus-today
check also runs again after the date changes are applied, so a committed
end date before today fails with the same past error even when the stored
row passed the first check. -/
theorem past_booking_read_only
    (db : List Booking) (booking : Booking) (approvals : List Approval)
    (d : BookingUpdate) (comment : Option String) (email : String)
    (today futureLimit now : Int) :
    (strLower booking.requesterEmail = strLower email →
      booking.endDate < today →
      update_booking db booking approvals d email today futureLimit now
          = .error .pastReadOnly ∧
      cancel_booking booking comment email today now = .error .pastReadOnly) ∧
    (today ≤ booking.endDate →
      cancel_booking booking comment email today now ≠ .error .pastReadOnly) ∧
    (today ≤ booking.endDate → today ≤ (applyUpdates booking d).endDate →
      update_booking db booking approvals d email today futureLimit now
        ≠ .error .pastReadOnly) ∧
    (strLower booking.requesterEmail = strLower email →
      today ≤ booking.endDate →
      (applyUpdates booking d).startDate ≤ (applyUpdates booking d).endDate →
      (applyUpdates booking d).endDate < today →
      update_booking db booking approvals d email today futureLimit now
        = .error .pastReadOnly) := by
  refine ⟨?_, ?_, ?_, ?_⟩
  · intro hown hlt
    constructor
    · simp [update_booking, not_ne_iff.mpr hown, hlt]
    · simp [cancel_booking, not_ne_iff.mpr hown, hlt]
  · intro hle
    unfold cancel_booking
    split
    · simp
    split
    next hlt => exact absurd hlt (not_lt.mpr hle)
    split
    · simp
    split
    · simp
    split
    · simp
    · simp
  · intro hle hae
    unfold update_booking
    split
    · simp
    split
    next hlt => exact absurd hlt (not_lt.mpr hle)
    dsimp only
    split
    · split
      · simp
      split
      next hlt => exact absurd hlt (not_lt.mpr hae)
      split
      · simp
      split
      · simp
      · simp
    · simp
  · intro hown hle hse hae
    have hp1 : ¬ (strLower booking.requesterEmail ≠ strLower email) :=
      not_ne_iff.mpr hown
    have hp2 : ¬ booking.endDate < today := not_lt.mpr hle
    have hdc : (d.startDate.isSome || d.endDate.isSome) = true := by
      cases hd : d.endDate with
      | some v => simp [hd]
      | none =>
        exfalso
        have : (applyUpdates booking d).endDate = booking.endDate := by
          simp [applyUpdates, hd]
        rw [this] at hae
        exact absurd hae (not_lt.mpr hle)
    have hns : ¬ (applyUpdates booking d).endDate < (applyUpdates booking d).startDate :=
      not_lt.mpr hse
    simp [update_booking, hp1, hp2, hdc, hns, hae]

/-- C6: no serialized response payload — the authenticated
`BookingResponse` built by the create, get and update handlers, and the
unauthenticated `PublicBookingResponse` — carries a `requester_email`
field: the requester's email is never included in any response body. -/
theorem requester_email_never_serialized :
    (∀ (b : Booking) (approvalRows : List (Nat × Approval))
        (eventRows : List (Nat × TimelineEvent)) (today : Int),
      "requester_email" ∉
        (serializeBookingResponse
          (buildBookingResponse b approvalRows eventRows today)).map Prod.fst) ∧
    (∀ (b : Booking) (today : Int),
      "requester_email" ∉
        (serializePublicBookingResponse
          (buildPublicBookingResponse b today)).map Prod.fst) ∧
    (∀ r : BookingResponse,
      "requester_email" ∉ (serializeBookingResponse r).map Prod.fst) ∧
    (∀ r : PublicBookingResponse,
      "requester_email" ∉ (serializePublicBookingResponse r).map Prod.fst) := by
  refine ⟨fun b approvalRows eventRows today => ?_, fun b today => ?_,
    fun r => ?_, fun r => ?_⟩ <;>
  · simp only [serializeBookingResponse, serializePublicBookingResponse,
      List.map_cons, List.map_nil]
    decide

/-- Sample stored booking for the concrete witnesses: Confirmed, June days
10–12, owned by "Anna@Mail.de". -/
def wBooking : Booking :=
  { id := 1, startDate := 10, endDate := 12, totalDays := 3, partySize := 2,
    affiliation := .ingeborg, requesterFirstName := "Anna",
    requesterEmail := "Anna@Mail.de", description := none,
    status := .confirmed, createdAt := 0, updatedAt := 0, lastActivityAt := 0 }

/-- Sample approval rows: two already Approved, one NoResponse. -/
def wApprovals : List Approval :=
  [{ party := .ingeborg, decision := .approved, comment := none, decidedAt := some 1 },
   { party := .cornelia, decision := .approved, comment := none, decidedAt := some 2 },
   { party := .angelika, decision := .noResponse, comment := none, decidedAt := none }]

/-- Sample partial update extending the end date from 12 to 15. -/
def wUpdExtend : BookingUpdate :=
  { requesterFirstName := none, startDate := none, endDate := some 15,
    partySize := none, affiliation := none, description := none }

/-- The booking row committed by `update_booking` on
`wBooking`/`wUpdExtend` with today = 8, now = 20. -/
def wB1 : Booking :=
  { id := 1, startDate := 10, endDate := 15, totalDays := 6, partySize := 2,
    affiliation := .ingeborg, requesterFirstName := "Anna",
    requesterEmail := "Anna@Mail.de", description := none,
    status := .confirmed, createdAt := 0, updatedAt := 20, lastActivityAt := 20 }

/-- The approval rows after the extension reset. -/
def wAppsReset : List Approval := wApprovals.map resetApproval

/-- The timeline events emitted by the sample extension update. -/
def wEvs1 : List TimelineEvent :=
  [{ when := 20, actor := "Anna", eventType := "Edited",
     note := some (fmtEditedNote 10 12 10 15) }]

/-- Sample creation payload whose requester is the Ingeborg approver
(spelled with different letter case). -/
def wCreate : BookingCreate :=
  { requesterFirstName := "Ingeborg", requesterEmail := "Ingeborg@Example.com",
    startDate := 100, endDate := 102, partySize := 3, affiliation := .cornelia,
    description := none, longStayConfirmed := false }

/-- The rows written by `create_booking [] 7 wCreate 5`. -/
def wCreateRes : CreateResult :=
  { booking :=
      { id := 7, startDate := 100, endDate := 102, totalDays := 3, partySize := 3,
        affiliation := .cornelia, requesterFirstName := "Ingeborg",
        requesterEmail := "Ingeborg@Example.com", description := none,
        status := .pending, createdAt := 5, updatedAt := 5, lastActivityAt := 5 }
    approvals :=
      [{ party := .ingeborg, decision := .approved, comment := none, decidedAt := some 5 },
       { party := .cornelia, decision := .noResponse, comment := none, decidedAt := none },
       { party := .angelika, decision := .noResponse, comment := none, decidedAt := none }]
    events :=
      [{ when := 5, actor := "Ingeborg", eventType := "SelfApproved",
         note := some (Party.value Party.ingeborg ++ " (self-approval)") },
       { when := 5, actor := "Ingeborg", eventType := "Created", note := none }] }

/-- Sample past booking (end date 5 < today 8). -/
def wPastBooking : Booking :=
  { wBooking with endDate := 5, startDate := 3, totalDays := 3 }

/-- Sample already-Canceled booking. -/
def wCanceledBooking : Booking :=
  { wBooking with status := .canceled }

/-- Witness for C1: on the concrete extension run, all three approval rows
come back reset. -/
theorem update_approval_reset_witness :
    wAppsReset = wApprovals.map resetApproval ∧
    ∀ a ∈ wAppsReset,
      a.decision = .noResponse ∧ a.decidedAt = none ∧ a.comment = none :=
  (update_approval_reset [] wBooking wApprovals wUpdExtend "anna@mail.de"
      8 600 20 wB1 wAppsReset wEvs1 rfl).1 (by decide)

/-- Witness for C2: the sample Confirmed booking on days 10–12 is reported
as a conflict for the candidate range 11–13. -/
theorem check_conflicts_exact_witness :
    wBooking ∈ check_conflicts [wBooking] 11 13 none :=
  (check_conflicts_exact [wBooking] 11 13 none wBooking).1.mpr
    ⟨by decide, by decide, by decide, by decide,
     fun i hi => Option.noConfusion hi⟩

/-- Witness for C3: the concrete create run fans out one approval row per
party. -/
theorem create_approval_fanout_witness :
    wCreateRes.approvals.map Approval.party
        = [Party.ingeborg, Party.cornelia, Party.angelika] ∧
    wCreateRes.approvals.length = 3 :=
  ⟨(create_approval_fanout [] 7 wCreate 5 wCreateRes rfl).1,
   (create_approval_fanout [] 7 wCreate 5 wCreateRes rfl).2.1⟩

/-- Witness for C4: the concrete create run by the Ingeborg approver emits
exactly one SelfApproved event naming Ingeborg. -/
theorem create_self_approval_witness :
    (wCreateRes.events.filter fun e => e.eventType == "SelfApproved") =
      [{ when := 5, actor := wCreate.requesterFirstName,
         eventType := "SelfApproved",
         note := some (Party.value Party.ingeborg ++ " (self-approval)") }] :=
  ((create_self_approval [] 7 wCreate 5 wCreateRes rfl).1
    Party.ingeborg (by decide)).2

/-- Witness for C5: canceling the sample Confirmed booking with comment
" Grund " succeeds and sets status Canceled. -/
theorem cancel_status_policy_witness :
    cancel_request wBooking (some " Grund ") "anna@mail.de" 8 20
      = .ok ({ wBooking with
               status := .canceled, updatedAt := 20, lastActivityAt := 20 },
             [{ when := 20, actor := wBooking.requesterFirstName,
                eventType := "Canceled",
                note := some ("Comment: " ++ "Grund") }],
             CANCEL_MESSAGE) :=
  ((cancel_status_policy wBooking "anna@mail.de" 8 20 (by decide)
      (by decide)).2.2.1 rfl).2 (some " Grund ") "Grund" rfl

/-- Witness for C7: on the sample past booking both update and cancel fail
with the past error. -/
theorem past_booking_read_only_witness :
    update_booking [] wPastBooking wApprovals wUpdExtend "anna@mail.de"
        8 600 20 = .error .pastReadOnly ∧
    cancel_booking wPastBooking none "anna@mail.de" 8 20
        = .error .pastReadOnly :=
  (past_booking_read_only [] wPastBooking wApprovals wUpdExtend none
      "anna@mail.de" 8 600 20).1 (by decide) (by decide)

/-- Witness for C8: the concrete extension run emits exactly one Edited
event embedding both ranges. -/
theorem update_timeline_policy_witness :
    wEvs1 = [{ when := 20, actor := wB1.requesterFirstName,
               eventType := "Edited",
               note := some (fmtEditedNote wBooking.startDate wBooking.endDate
                 wB1.startDate wB1.endDate) }] :=
  (update_timeline_policy [] wBooking wApprovals wUpdExtend "anna@mail.de"
      8 600 20 wB1 wAppsReset wEvs1 rfl).1 (by decide)

/-- Witness for C9: the concrete extension run leaves the status Confirmed
and bumps updated_at. -/
theorem update_frame_witness :
    wB1.status = StatusEnum.confirmed ∧ wB1.requesterEmail = wBooking.requesterEmail :=
  ⟨(update_frame [] wBooking wApprovals wUpdExtend "anna@mail.de"
      8 600 20 wB1 wAppsReset wEvs1 rfl).1,
   (update_frame [] wBooking wApprovals wUpdExtend "anna@mail.de"
      8 600 20 wB1 wAppsReset wEvs1 rfl).2.2.1⟩

/-- Witness for C10: re-canceling the sample already-Canceled booking is a
no-op success returning the fixed confirmation. -/
theorem cancel_already_canceled_noop_witness :
    cancel_booking wCanceledBooking none "anna@mail.de" 8 20
      = .ok (wCanceledBooking, [], CANCEL_MESSAGE) :=
  (cancel_already_canceled_noop wCanceledBooking none "anna@mail.de"
      8 20).2.2 (by decide) (by decide) rfl

end Betzenstein
